import Mathlib

/-!
Verification of the `reporover` repository discovery and search engine.

The definitions below are a shallow embedding, translated from the Python
sources in `src/reporover/` (`search.py`, `discover.py`, `models.py`).
HTTP transport is abstracted behind explicit provider functions; console
output is modelled as a list of printed lines where the behaviour under
scrutiny mentions it.  Python `datetime` values are modelled as their
serialized strings, and Python `fnmatch.fnmatch` is modelled by an
executable glob matcher supporting `*`, `?` and `[...]` classes.
-/

set_option maxRecDepth 16000

namespace RepoRover

/-! ## Strings: Python `in` containment and `fnmatch`-style glob matching -/

/-- Python `needle in hay` on strings: `needle` occurs as a contiguous
substring of `hay` (the empty string occurs in everything). -/
def strContains (hay needle : String) : Bool :=
  decide (needle.data <:+: hay.data)

/-- ASCII lowercasing of one character, as CPython's `str.lower` acts on the
ASCII inputs exercised here. -/
def lowerChar (c : Char) : Char :=
  if 'A' ≤ c ∧ c ≤ 'Z' then Char.ofNat (c.toNat + 32) else c

/-- Python `s.lower()`, modelled characterwise. -/
def lowerStr (s : String) : List Char :=
  s.data.map lowerChar

/-- Python `needle.lower() in hay.lower()`: case-insensitive substring
containment, the first disjunct of every pattern test in `search.py`. -/
def strContainsLower (hay needle : String) : Bool :=
  decide (lowerStr needle <:+: lowerStr hay)

/-- Membership of a character in a glob character class body: `a-b` spans a
range when `-` has a character on both sides, otherwise characters are
literal members. -/
def memClass : List Char → Char → Bool
  | a :: '-' :: b :: rest, c =>
      (decide (a ≤ c) && decide (c ≤ b)) || memClass rest c
  | a :: rest, c => a == c || memClass rest c
  | [], _ => false

/-- Split the characters following a class opener at the first `]`,
returning the class body and the remaining pattern; `none` when the class
is not closed (then `fnmatch` treats `[` as a literal character). -/
def parseClassBody (cs : List Char) : Option (List Char × List Char) :=
  match cs.dropWhile (· ≠ ']') with
  | _ :: rest => some (cs.takeWhile (· ≠ ']'), rest)
  | [] => none

/-- Parse a glob character class after `[`: an optional leading `!` negates
the class, and a `]` directly after that is a literal member of the body. -/
def parseClass : List Char → Option (Bool × List Char × List Char)
  | '!' :: ']' :: t => (parseClassBody t).map (fun br => (true, ']' :: br.1, br.2))
  | '!' :: t => (parseClassBody t).map (fun br => (true, br.1, br.2))
  | ']' :: t => (parseClassBody t).map (fun br => (false, ']' :: br.1, br.2))
  | cs => (parseClassBody cs).map (fun br => (false, br.1, br.2))

/-- Fuel-indexed glob matching of a name against a pattern, in the style of
Python `fnmatch.fnmatchcase`: `*` matches any run, `?` any one character,
`[...]` a character class (`[!...]` negated), everything else literally.
Every recursive call strictly shrinks `p.length + n.length`, so fuel
`p.length + n.length + 1` always suffices; the fuel only makes the
recursion structural. -/
def globMatchF : Nat → List Char → List Char → Bool
  | 0, _, _ => false
  | _ + 1, [], [] => true
  | _ + 1, [], _ :: _ => false
  | fuel + 1, '*' :: ps, [] => globMatchF fuel ps []
  | fuel + 1, '*' :: ps, n :: ns =>
      globMatchF fuel ps (n :: ns) || globMatchF fuel ('*' :: ps) ns
  | _ + 1, '?' :: _, [] => false
  | fuel + 1, '?' :: ps, _ :: ns => globMatchF fuel ps ns
  | _ + 1, '[' :: _, [] => false
  | fuel + 1, '[' :: ps, n :: ns =>
      match parseClass ps with
      | some (neg, body, rest) =>
          (memClass body n != neg) && globMatchF fuel rest ns
      | none => ('[' == n) && globMatchF fuel ps ns
  | _ + 1, _ :: _, [] => false
  | fuel + 1, p :: ps, n :: ns => (p == n) && globMatchF fuel ps ns

/-- Glob matching with always-sufficient fuel. -/
def globMatch (p n : List Char) : Bool :=
  globMatchF (p.length + n.length + 1) p n

/-- Python `fnmatch.fnmatch(name.lower(), pattern.lower())` as used
throughout `search.py`: case-insensitive glob match. -/
def fnmatchLower (name pattern : String) : Bool :=
  globMatch (lowerStr pattern) (lowerStr name)

/-! ## `search.py`: `matches_repo_pattern` -/

/-- Translation of `matches_repo_pattern` from `search.py`: an empty
fragment or the bare `*` matches everything, a fragment holding a glob
metacharacter is matched as a case-insensitive glob, and otherwise the
fragment is looked for as a case-insensitive substring of the name. -/
def matches_repo_pattern (repo_name repo_name_fragment : String) : Bool :=
  if repo_name_fragment == "" || repo_name_fragment == "*" then
    true
  else if repo_name_fragment.data.contains '*' || repo_name_fragment.data.contains '?' then
    fnmatchLower repo_name repo_name_fragment
  else
    strContainsLower repo_name repo_name_fragment

/-! ## `search.py`: `check_patterns_match` -/

/-- The per-name test inside both list comprehensions of
`check_patterns_match`: case-insensitive substring containment, or exact
equality, or case-insensitive glob match. -/
def patternTest (pattern name : String) : Bool :=
  strContainsLower name pattern || name == pattern || fnmatchLower name pattern

/-- One list comprehension of `check_patterns_match`: the file names that
the given pattern matches, in input order. -/
def pattern_matches (file_names : List String) (pattern : String) : List String :=
  file_names.filter (fun name => patternTest pattern name)

/-- The `match_all` loop of `check_patterns_match`: accumulate each
pattern's matches, stopping with `all_patterns_found = False` at the first
pattern with no matches. -/
def matchAllLoop (file_names : List String) :
    List String → List String → List String × Bool
  | [], matched_files => (matched_files, true)
  | pattern :: rest, matched_files =>
      let pattern_matched := pattern_matches file_names pattern
      if pattern_matched ≠ [] then
        matchAllLoop file_names rest (matched_files ++ pattern_matched)
      else
        (matched_files, false)

/-- Translation of `check_patterns_match` from `search.py`.  The Python
function ends with `list(set(matched_files))`, whose element order is not
specified; it is modelled by `List.dedup`, and properties are stated up to
membership. -/
def check_patterns_match (file_names file_patterns : List String)
    (match_all : Bool) : List String :=
  if match_all then
    let r := matchAllLoop file_names file_patterns []
    if r.2 then r.1.dedup else []
  else
    (file_patterns.foldl
      (fun matched_files pattern =>
        matched_files ++ pattern_matches file_names pattern) []).dedup

/-! ## `discover.py`: `_build_search_query` -/

/-- Translation of `_build_search_query` from `discover.py`.  Python
truthiness is kept: an empty language/date string and an empty topics list
contribute nothing, while `stars`/`forks` are only tested against `None`. -/
def build_search_query (language : Option String) (stars forks : Option Int)
    (created_after updated_after : Option String)
    (topics : Option (List String)) : String :=
  let query_parts : List String :=
    (match language with
      | some l => if l ≠ "" then [s!"language:{l}"] else []
      | none => []) ++
    (match stars with
      | some s => [s!"stars:>={s}"]
      | none => []) ++
    (match forks with
      | some f => [s!"forks:>={f}"]
      | none => []) ++
    (match created_after with
      | some c => if c ≠ "" then [s!"created:>={c}"] else []
      | none => []) ++
    (match updated_after with
      | some u => if u ≠ "" then [s!"pushed:>={u}"] else []
      | none => []) ++
    (match topics with
      | some ts => if ts ≠ [] then ts.map (fun t => s!"topic:{t}") else []
      | none => [])
  let query_parts := if query_parts = [] then ["is:public"] else query_parts
  String.intercalate " " query_parts

/-- Token list in the order fixed by the specification: language, then
stars, then forks, then created, then updated, then topics in input order
(written from the spec's ordering law, for comparison with
`build_search_query`). -/
def specQueryTokens (language : Option String) (stars forks : Option Int)
    (created_after updated_after : Option String)
    (topics : Option (List String)) : List String :=
  (match language with
    | some l => if l ≠ "" then [s!"language:{l}"] else []
    | none => []) ++
  (match stars with
    | some s => [s!"stars:>={s}"]
    | none => []) ++
  (match forks with
    | some f => [s!"forks:>={f}"]
    | none => []) ++
  (match created_after with
    | some c => if c ≠ "" then [s!"created:>={c}"] else []
    | none => []) ++
  (match updated_after with
    | some u => if u ≠ "" then [s!"pushed:>={u}"] else []
    | none => []) ++
  (match topics with
    | some ts => if ts ≠ [] then ts.map (fun t => s!"topic:{t}") else []
    | none => [])

/-! ## `constants.py` values used here (the module is not among the
sources; its tests pin `StatusCode.WORKING.value == 200`) -/

/-- `StatusCode.WORKING.value`, the HTTP success status compared against
throughout `search.py` and `discover.py`. -/
def statusWorking : Nat := 200

/-- The `StatusCode` members used as run outcomes by the search
subcommand. -/
inductive StatusCode where
  | SUCCESS
  | FAILURE
deriving DecidableEq

/-! ## `discover.py`: the bounded recursive file walker -/

/-- One entry of a GitHub directory listing, holding the fields
`_collect_files_recursive` and `_repository_contains_files` read: `type`,
`name` and `path`. -/
structure FItem where
  type : String
  name : String
  path : String
deriving DecidableEq

/-- A directory-listing response as `_collect_files_recursive` sees it:
the HTTP status, whether the JSON payload is a list, and (when it is) the
items. -/
structure DListing where
  status : Nat
  isList : Bool
  items : List FItem
deriving DecidableEq

/-- Translation of `_collect_files_recursive` from `discover.py`, with the
HTTP fetch abstracted as the `contents` function from path to response and
the recursion made structural on a fuel argument.  Fuel `max_depth + 1`
always suffices, because the code only recurses while
`current_depth < max_depth`; the Python function mutates a shared
accumulator list, modelled here by returning the appended items in the
same order. -/
def collectFilesRecursive (contents : String → DListing) (max_depth : Nat) :
    Nat → Nat → String → List FItem
  | 0, _, _ => []
  | fuel + 1, current_depth, path =>
      if current_depth > max_depth then []
      else
        let response := contents path
        if response.status ≠ statusWorking then []
        else if ¬response.isList then []
        else
          response.items.foldl
            (fun all_files item =>
              if item.type == "file" then all_files ++ [item]
              else if item.type == "dir" then
                all_files ++ [item] ++
                  (if current_depth < max_depth then
                    collectFilesRecursive contents max_depth fuel
                      (current_depth + 1) item.path
                  else [])
              else all_files)
            []

/-- Translation of `_get_repository_files`: walk from the root path `""` at
depth 0 (exceptions cannot arise in this model, so its `try` is vacuous). -/
def get_repository_files (contents : String → DListing) (max_depth : Nat) :
    List FItem :=
  collectFilesRecursive contents max_depth (max_depth + 1) 0 ""

/-- `collectFilesRecursive` instrumented with the `current_depth` of the
listing each emitted item came from, used to state the depth bound. -/
def collectFilesAnnotated (contents : String → DListing) (max_depth : Nat) :
    Nat → Nat → String → List (Nat × FItem)
  | 0, _, _ => []
  | fuel + 1, current_depth, path =>
      if current_depth > max_depth then []
      else
        let response := contents path
        if response.status ≠ statusWorking then []
        else if ¬response.isList then []
        else
          response.items.foldl
            (fun all_files item =>
              if item.type == "file" then all_files ++ [(current_depth, item)]
              else if item.type == "dir" then
                all_files ++ [(current_depth, item)] ++
                  (if current_depth < max_depth then
                    collectFilesAnnotated contents max_depth fuel
                      (current_depth + 1) item.path
                  else [])
              else all_files)
            []

/-! ## `search.py`: `get_all_files_recursive` -/

/-- One item as `get_all_files_recursive` reads it: `type` and `name`. -/
structure SItem where
  type : String
  name : String
deriving DecidableEq

/-- The JSON payload of a contents response as `get_all_files_recursive`
iterates it: either a JSON array of items, or a non-array value.  For a
non-array, `nonEmpty` records whether iterating it yields anything:
iterating a non-empty dict (or string) reaches `item["type"]`, which
raises a `TypeError`, while an empty one just yields nothing. -/
inductive SPayload where
  | arr (items : List SItem)
  | notArr (nonEmpty : Bool)
deriving DecidableEq

/-- A contents response for `get_all_files_recursive`. -/
structure SListing where
  status : Nat
  payload : SPayload
deriving DecidableEq

/-- Translation of `get_all_files_recursive` from `search.py`: `none` is
fuel exhaustion (the Python recursion has no depth bound of its own),
`some (.error e)` a raised exception propagating out of the walk, and
`some (.ok files)` the returned file paths.  A non-success status returns
the accumulated (empty) list for that path; unlike the discover walker
there is no check that the payload is a list. -/
def get_all_files_recursive (contents : String → SListing) :
    Nat → String → Option (Except String (List String))
  | 0, _ => none
  | fuel + 1, path =>
      let response := contents path
      if response.status ≠ statusWorking then some (.ok [])
      else
        match response.payload with
        | .notArr nonEmpty =>
            if nonEmpty then
              some (.error "TypeError: string indices must be integers")
            else some (.ok [])
        | .arr items =>
            items.foldl
              (fun acc item =>
                match acc with
                | none => none
                | some (.error e) => some (.error e)
                | some (.ok all_files) =>
                    let child_path :=
                      if path ≠ "" then path ++ "/" ++ item.name else item.name
                    if item.type == "file" then
                      some (.ok (all_files ++ [child_path]))
                    else if item.type == "dir" then
                      match get_all_files_recursive contents fuel child_path with
                      | none => none
                      | some (.error e) => some (.error e)
                      | some (.ok subdir_files) =>
                          some (.ok (all_files ++ subdir_files))
                    else some (.ok all_files))
              (some (.ok []))

/-! ## `search.py`: `get_all_repositories` and `search_repositories_for_files` -/

/-- A single-quote string, used to keep the console lines textually close
to the source. -/
def sq : String := String.singleton (Char.ofNat 39)

/-- A repository record with the attributes `search_repositories_for_files`
reads (`name`, `owner.login`, `html_url`). -/
structure Repo where
  name : String
  ownerLogin : String
  htmlUrl : String
deriving DecidableEq

/-- Outcome of one `requests.get` on a repository-listing page: either a
raised request exception, or a response carrying its status and the
normalized record list (for the global search endpoint the code takes the
`items` field, defaulting to empty; for an organization the payload
itself). -/
inductive PageResult (α : Type) where
  | raise (msg : String)
  | resp (status : Nat) (records : List α)
deriving DecidableEq

/-- The page URL `get_all_repositories` builds (Python truthiness: an empty
organization name also selects the global search endpoint). -/
def reposUrl (organization_name : Option String) (page : Nat) : String :=
  match organization_name with
  | some org =>
      if org ≠ "" then
        s!"https://api.github.com/orgs/{org}/repos?per_page=100&page={page}"
      else
        s!"https://api.github.com/search/repositories?q=is:public&per_page=100&page={page}"
  | none =>
      s!"https://api.github.com/search/repositories?q=is:public&per_page=100&page={page}"

/-- Result of `get_all_repositories`: either a request exception escaped
(`raised`, carrying the pages requested so far and the console lines
printed so far), or the loop finished (`done`, with the returned
repositories, the pages requested and the console lines). -/
inductive FetchResult (α : Type) where
  | raised (msg : String) (pagesRequested : List Nat) (log : List String)
  | done (repositories : List α) (pagesRequested : List Nat) (log : List String)
deriving DecidableEq

/-- The `while True` loop of `get_all_repositories`, structural on fuel
(`none` = fuel exhausted; the Python loop can run forever on an
ever-nonempty provider when `max_repos` is 0).  Each iteration requests one
page; a non-success status prints a diagnostic and breaks, an empty record
list breaks, and reaching `max_repos` (when non-zero, Python truthiness)
truncates and breaks. -/
def getAllRepositoriesLoop (requestGet : Nat → PageResult α)
    (organization_name : Option String) (max_repos : Nat) :
    Nat → Nat → List α → List Nat → List String → Option (FetchResult α)
  | 0, _, _, _, _ => none
  | fuel + 1, page, all_repositories, pages, log =>
      let log := log ++ [s!"Debug: Making request to: {reposUrl organization_name page}"]
      let pages := pages ++ [page]
      match requestGet page with
      | .raise msg => some (.raised msg pages log)
      | .resp status records =>
          let log := log ++ [s!"Debug: Response status code: {status}"]
          if status ≠ statusWorking then
            some (.done all_repositories pages
              (log ++ [s!"Failed to fetch repositories page {page}",
                       s!"Diagnostic: {status}"]))
          else if records.isEmpty then
            some (.done all_repositories pages log)
          else
            let all_repositories := all_repositories ++ records
            let log := log ++
              [s!"Debug: Found {records.length} repos on page {page}, total so far: {all_repositories.length}"]
            if max_repos ≠ 0 ∧ all_repositories.length ≥ max_repos then
              some (.done (all_repositories.take max_repos) pages
                (log ++ [s!"Debug: Reached maximum repository limit of {max_repos}"]))
            else
              getAllRepositoriesLoop requestGet organization_name max_repos
                fuel (page + 1) all_repositories pages log

/-- Translation of `get_all_repositories` from `search.py`: paginate from
page 1 with an empty accumulator (the Python default for `max_repos` is
100). -/
def get_all_repositories (requestGet : Nat → PageResult α)
    (organization_name : Option String) (max_repos : Nat) (fuel : Nat) :
    Option (FetchResult α) :=
  getAllRepositoriesLoop requestGet organization_name max_repos fuel 1 [] [] []

/-- `getAllRepositoriesLoop` with the `max_repos` stop check removed, the
reference for what a disabled cap must behave like. -/
def getAllRepositoriesNoCapLoop (requestGet : Nat → PageResult α)
    (organization_name : Option String) :
    Nat → Nat → List α → List Nat → List String → Option (FetchResult α)
  | 0, _, _, _, _ => none
  | fuel + 1, page, all_repositories, pages, log =>
      let log := log ++ [s!"Debug: Making request to: {reposUrl organization_name page}"]
      let pages := pages ++ [page]
      match requestGet page with
      | .raise msg => some (.raised msg pages log)
      | .resp status records =>
          let log := log ++ [s!"Debug: Response status code: {status}"]
          if status ≠ statusWorking then
            some (.done all_repositories pages
              (log ++ [s!"Failed to fetch repositories page {page}",
                       s!"Diagnostic: {status}"]))
          else if records.isEmpty then
            some (.done all_repositories pages log)
          else
            let all_repositories := all_repositories ++ records
            let log := log ++
              [s!"Debug: Found {records.length} repos on page {page}, total so far: {all_repositories.length}"]
            getAllRepositoriesNoCapLoop requestGet organization_name
              fuel (page + 1) all_repositories pages log

/-- One entry of `found_repositories` in `search_repositories_for_files`. -/
structure FoundRepo where
  name : String
  owner : String
  url : String
  matched_files : List String
deriving DecidableEq

/-- The organization-name extraction at the top of
`search_repositories_for_files`: an empty, all-whitespace or `*` URL means
global search (`None`); otherwise the last `/`-separated component after
stripping trailing slashes. -/
def extractOrganizationName (github_organization_url : String) : Option String :=
  if github_organization_url ≠ "" ∧ github_organization_url.trim ≠ "" ∧
      github_organization_url ≠ "*" then
    some (((github_organization_url.dropRightWhile (· = '/')).splitOn "/").getLastD "")
  else
    none

/-- The per-repository loop of `search_repositories_for_files`: walk each
matching repository (the walker outcome abstracted as `repoFiles`), keep it
when `check_patterns_match` returns a non-empty list, and break once
`max_matching_repos` (when non-zero, Python truthiness) is reached.  The
loop's progress prints are display-only and not modelled. -/
def searchFoundLoop (repoFiles : Repo → List String)
    (file_patterns : List String) (match_all : Bool)
    (max_matching_repos : Nat) (organization_name : Option String) :
    List Repo → List FoundRepo → List FoundRepo
  | [], found_repositories => found_repositories
  | repo :: rest, found_repositories =>
      let repo_owner :=
        match organization_name with
        | none => repo.ownerLogin
        | some org => org
      let matched_files :=
        check_patterns_match (repoFiles repo) file_patterns match_all
      if matched_files ≠ [] then
        let found_repositories := found_repositories ++
          [⟨repo.name, repo_owner, repo.htmlUrl, matched_files⟩]
        if max_matching_repos ≠ 0 ∧
            found_repositories.length ≥ max_matching_repos then
          found_repositories
        else
          searchFoundLoop repoFiles file_patterns match_all
            max_matching_repos organization_name rest found_repositories
      else
        searchFoundLoop repoFiles file_patterns match_all
          max_matching_repos organization_name rest found_repositories

/-- `searchFoundLoop` with the `max_matching_repos` stop check removed, the
reference for what a disabled matching cap must behave like. -/
def searchFoundLoopNoCap (repoFiles : Repo → List String)
    (file_patterns : List String) (match_all : Bool)
    (organization_name : Option String) :
    List Repo → List FoundRepo → List FoundRepo
  | [], found_repositories => found_repositories
  | repo :: rest, found_repositories =>
      let repo_owner :=
        match organization_name with
        | none => repo.ownerLogin
        | some org => org
      let matched_files :=
        check_patterns_match (repoFiles repo) file_patterns match_all
      if matched_files ≠ [] then
        searchFoundLoopNoCap repoFiles file_patterns match_all
          organization_name rest
          (found_repositories ++ [⟨repo.name, repo_owner, repo.htmlUrl, matched_files⟩])
      else
        searchFoundLoopNoCap repoFiles file_patterns match_all
          organization_name rest found_repositories

/-- Translation of `search_repositories_for_files` from `search.py`, with
the page requests abstracted as `requestGet`, the per-repository walk as
`repoFiles` (runs in which no walk raises), and fuel for the pagination
loop.  Returns the status outcome, the found repositories, and the console
lines (the per-repository and summary prints, pure display, are not
modelled).  A raised request exception is caught and yields `FAILURE` with
a diagnostic; a non-success page status only ends pagination inside
`get_all_repositories`. -/
def search_repositories_for_files (requestGet : Nat → PageResult Repo)
    (repoFiles : Repo → List String)
    (github_organization_url repo_name_fragment : String)
    (file_patterns : List String) (match_all : Bool)
    (max_repos_to_search max_matching_repos : Nat) (fuel : Nat) :
    Option (StatusCode × List FoundRepo × List String) :=
  let organization_name := extractOrganizationName github_organization_url
  let logHead :=
    match organization_name with
    | some org => [s!"Debug: Organization name extracted: {org}"]
    | none =>
        ["Debug: Searching across all GitHub repositories (no organization specified)"]
  match get_all_repositories requestGet organization_name max_repos_to_search fuel with
  | none => none
  | some (.raised msg _ log) =>
      some (.FAILURE, [],
        logHead ++ log ++
          ["Failed to search repositories: Network error occurred",
           s!"Diagnostic: {msg}"])
  | some (.done repositories _ log) =>
      let log := logHead ++ log ++
        [s!"Debug: Total repositories found: {repositories.length}"]
      let log := log ++
        (if repositories ≠ [] then
          "Debug: First few repository names:" ::
            (repositories.take 5).enum.map
              (fun ir => s!"  {ir.1 + 1}. {ir.2.name}")
        else [])
      let matching_repos := repositories.filter
        (fun repo => matches_repo_pattern repo.name repo_name_fragment)
      let log := log ++
        [s!"Debug: Repositories matching {sq}{repo_name_fragment}{sq}: {matching_repos.length}"]
      if matching_repos = [] then
        some (.SUCCESS, [],
          log ++ [s!"No repositories found matching fragment {sq}{repo_name_fragment}{sq}"])
      else
        let log := log ++
          [s!"Found {matching_repos.length} repositories matching {sq}{repo_name_fragment}{sq}"]
        let found_repositories :=
          searchFoundLoop repoFiles file_patterns match_all
            max_matching_repos organization_name matching_repos []
        some (.SUCCESS, found_repositories, log)

/-- The status component of a `search_repositories_for_files` outcome. -/
def searchStatus (r : Option (StatusCode × List FoundRepo × List String)) :
    Option StatusCode :=
  r.map (fun x => x.1)

/-- The console lines of a `search_repositories_for_files` outcome. -/
def searchLog (r : Option (StatusCode × List FoundRepo × List String)) :
    List String :=
  (r.map (fun x => x.2.2)).getD []

/-- The repositories component of a `done` fetch outcome. -/
def doneRepos : Option (FetchResult α) → Option (List α)
  | some (.done repositories _ _) => some repositories
  | _ => none

/-- The requested pages of a `done` fetch outcome. -/
def donePages : Option (FetchResult α) → Option (List Nat)
  | some (.done _ pages _) => some pages
  | _ => none

/-- The records of `k` consecutive provider pages starting at `start`, in
page order. -/
def pagesConcat (pages : Nat → List α) (start k : Nat) : List α :=
  (List.range' start k).flatMap pages

/-- A provider page function for the pagination scenarios of §8: three
full pages of 100 records, then empty pages. -/
def pagesScenario (p : Nat) : List Nat :=
  if p ≤ 3 then (List.range 100).map (fun i => 100 * (p - 1) + i) else []

/-- A provider whose every page is empty. -/
def emptyPages : Nat → List Nat := fun _ => []

/-- The synthetic depth-4 repository tree of §8, as a contents endpoint:
listings exist at depths 0 through 4 (paths `""`, `a`, `a/b`, `a/b/c`,
`a/b/c/d`). -/
def tree4 : String → DListing := fun path =>
  if path = "" then
    ⟨200, true, [⟨"dir", "a", "a"⟩, ⟨"file", "f0", "f0"⟩]⟩
  else if path = "a" then
    ⟨200, true, [⟨"dir", "b", "a/b"⟩, ⟨"file", "f1", "a/f1"⟩]⟩
  else if path = "a/b" then
    ⟨200, true, [⟨"dir", "c", "a/b/c"⟩, ⟨"file", "f2", "a/b/f2"⟩]⟩
  else if path = "a/b/c" then
    ⟨200, true, [⟨"dir", "d", "a/b/c/d"⟩, ⟨"file", "f3", "a/b/c/f3"⟩]⟩
  else if path = "a/b/c/d" then
    ⟨200, true, [⟨"file", "f4", "a/b/c/d/f4"⟩]⟩
  else ⟨200, true, []⟩

/-- A repository for the search walker with one enumerable root holding a
directory whose listing is a 200 non-list payload, followed by a file. -/
def badRepoContents : String → SListing := fun path =>
  if path = "" then
    ⟨200, .arr [⟨"dir", "sub"⟩, ⟨"file", "kept.txt"⟩]⟩
  else if path = "sub" then
    ⟨200, .notArr true⟩
  else ⟨200, .arr []⟩

/-! ## `models.py` and `discover.py`: saving and loading discovery results

The JSON document that `json.dump` writes is modelled directly as a value
of an inductive `Json` type; the file layer (path, encoding, `json.dump`
formatting) is the identity on this document.  `datetime` fields are
modelled as their serialized strings. -/

/-- A JSON value. -/
inductive Json where
  | null
  | str (s : String)
  | num (n : Int)
  | bool (b : Bool)
  | arr (elems : List Json)
  | obj (fields : List (String × Json))

/-- The `DiscoverConfiguration` Pydantic model from `models.py`:
`command` defaults to `"discover"`, `search_query` is required, everything
else is optional with default `None`. -/
structure DiscoverConfiguration where
  command : String
  language : Option String
  stars : Option Int
  forks : Option Int
  created_after : Option String
  updated_after : Option String
  files : Option (List String)
  topics : Option (List String)
  max_depth : Option Int
  max_filter : Option Int
  max_display : Option Int
  search_query : String
deriving DecidableEq

/-- The `RepositoryInfo` Pydantic model from `models.py` (datetimes as
serialized strings). -/
structure RepositoryInfo where
  name : String
  url : String
  description : Option String
  language : Option String
  stars : Int
  forks : Int
  created_at : String
  updated_at : String
  files : Option (List String)
deriving DecidableEq

/-- A JSON array of strings. -/
def jstrList (xs : List String) : Json :=
  .arr (xs.map .str)

/-- The object entry an optional Pydantic field contributes under
`model_dump(exclude_none=True)`: nothing when `None`, one key otherwise. -/
def optEntry (k : String) (f : α → Json) : Option α → List (String × Json)
  | some v => [(k, f v)]
  | none => []

/-- `DiscoverConfiguration.model_dump(exclude_none=True)`: fields in
declaration order, `None` fields omitted. -/
def DiscoverConfiguration.dumpExcludeNone (c : DiscoverConfiguration) : Json :=
  .obj ([("command", .str c.command)] ++
    optEntry "language" .str c.language ++
    optEntry "stars" .num c.stars ++
    optEntry "forks" .num c.forks ++
    optEntry "created_after" .str c.created_after ++
    optEntry "updated_after" .str c.updated_after ++
    optEntry "files" jstrList c.files ++
    optEntry "topics" jstrList c.topics ++
    optEntry "max_depth" .num c.max_depth ++
    optEntry "max_filter" .num c.max_filter ++
    optEntry "max_display" .num c.max_display ++
    [("search_query", .str c.search_query)])

/-- `RepositoryInfo.model_dump(exclude_none=True)`: fields in declaration
order, `None` fields omitted. -/
def RepositoryInfo.dumpExcludeNone (r : RepositoryInfo) : Json :=
  .obj ([("name", .str r.name), ("url", .str r.url)] ++
    optEntry "description" .str r.description ++
    optEntry "language" .str r.language ++
    [("stars", .num r.stars), ("forks", .num r.forks),
     ("created_at", .str r.created_at), ("updated_at", .str r.updated_at)] ++
    optEntry "files" jstrList r.files)

/-- `RepoRoverData.create_discover_data` followed by `model_dump`: the
document `json.dump` writes, a single `reporover` container holding the
dumped configuration and the dumped repositories under `repos`. -/
def create_discover_data (configuration : DiscoverConfiguration)
    (repositories : List RepositoryInfo) : Json :=
  .obj [("reporover", .obj
    [("configuration", configuration.dumpExcludeNone),
     ("repos", .arr (repositories.map RepositoryInfo.dumpExcludeNone))])]

/-- The `configuration_data` dict built in `search_repositories`
(`discover.py`), before `search_query` is added. -/
structure ConfigurationData where
  language : Option String
  stars : Option Int
  forks : Option Int
  created_after : Option String
  updated_after : Option String
  files : Option (List String)
  topics : Option (List String)
  max_depth : Option Int
  max_filter : Option Int
  max_display : Option Int
deriving DecidableEq

/-- A repository object as `_save_results_to_json` reads it from PyGithub
(the attributes accessed when building a `RepositoryInfo`). -/
structure GitHubRepo where
  name : String
  html_url : String
  description : Option String
  language : Option String
  stargazers_count : Int
  forks_count : Int
  created_at : String
  updated_at : String
deriving DecidableEq

/-- The `DiscoverConfiguration` that `_save_results_to_json` constructs:
the configuration data plus the search query, `command` from its default.
No timestamp field exists on the model, despite the code comment saying one
is set by a `default_factory`. -/
def savedConfiguration (configuration_data : ConfigurationData)
    (search_query : String) : DiscoverConfiguration :=
  { command := "discover"
    language := configuration_data.language
    stars := configuration_data.stars
    forks := configuration_data.forks
    created_after := configuration_data.created_after
    updated_after := configuration_data.updated_after
    files := configuration_data.files
    topics := configuration_data.topics
    max_depth := configuration_data.max_depth
    max_filter := configuration_data.max_filter
    max_display := configuration_data.max_display
    search_query := search_query }

/-- The `RepositoryInfo` that `_save_results_to_json` builds for one
repository (`files=required_files if required_files else None`: Python
truthiness turns an empty list into `None`). -/
def savedRepositoryInfo (required_files : Option (List String))
    (repo : GitHubRepo) : RepositoryInfo :=
  { name := repo.name
    url := repo.html_url
    description := repo.description
    language := repo.language
    stars := repo.stargazers_count
    forks := repo.forks_count
    created_at := repo.created_at
    updated_at := repo.updated_at
    files :=
      match required_files with
      | some fs => if fs ≠ [] then some fs else none
      | none => none }

/-- Translation of `_save_results_to_json` from `discover.py`: the JSON
document written to `save_file` (the file write itself, and the `True`
return on success, are outside the document model). -/
def save_results_to_json (repositories : List GitHubRepo)
    (configuration_data : ConfigurationData) (search_query : String)
    (required_files : Option (List String)) : Json :=
  create_discover_data
    (savedConfiguration configuration_data search_query)
    (repositories.map (savedRepositoryInfo required_files))

/-- First value for a key in a JSON object's field list (Python dict
lookup; the documents built here never repeat a key). -/
def lookupKey : List (String × Json) → String → Option Json
  | [], _ => none
  | (k2, v) :: rest, k => if k2 = k then some v else lookupKey rest k

/-- Read a JSON value as a string. -/
def asStr : Json → Option String
  | .str s => some s
  | _ => none

/-- Read a JSON value as an integer. -/
def asInt : Json → Option Int
  | .num n => some n
  | _ => none

/-- Read a list of JSON values as strings. -/
def strListOf : List Json → Option (List String)
  | [] => some []
  | .str s :: rest => (strListOf rest).map (fun xs => s :: xs)
  | _ => none

/-- Read a JSON value as an array of strings. -/
def asStrList : Json → Option (List String)
  | .arr xs => strListOf xs
  | _ => none

/-- A required model field: the key must be present and well-typed. -/
def reqField (fields : List (String × Json)) (k : String)
    (p : Json → Option α) : Option α :=
  (lookupKey fields k).bind p

/-- An optional model field: an absent key reads as `None`; a present key
must be well-typed. -/
def optField (fields : List (String × Json)) (k : String)
    (p : Json → Option α) : Option (Option α) :=
  match lookupKey fields k with
  | none => some none
  | some v => (p v).map some

/-- Validate a JSON value as a `DiscoverConfiguration`: `search_query` is
required, `command` defaults to `"discover"`, every other field optional;
any type mismatch rejects the whole value. -/
def parseDiscoverConfiguration (j : Json) : Option DiscoverConfiguration :=
  match j with
  | .obj fields => do
      let command ←
        match lookupKey fields "command" with
        | none => some "discover"
        | some v => asStr v
      let language ← optField fields "language" asStr
      let stars ← optField fields "stars" asInt
      let forks ← optField fields "forks" asInt
      let created_after ← optField fields "created_after" asStr
      let updated_after ← optField fields "updated_after" asStr
      let files ← optField fields "files" asStrList
      let topics ← optField fields "topics" asStrList
      let max_depth ← optField fields "max_depth" asInt
      let max_filter ← optField fields "max_filter" asInt
      let max_display ← optField fields "max_display" asInt
      let search_query ← reqField fields "search_query" asStr
      some { command, language, stars, forks, created_after, updated_after,
             files, topics, max_depth, max_filter, max_display, search_query }
  | _ => none

/-- Validate a JSON value as a `RepositoryInfo`: required fields must be
present and well-typed, optional ones read as `None` when absent. -/
def parseRepositoryInfo (j : Json) : Option RepositoryInfo :=
  match j with
  | .obj fields => do
      let name ← reqField fields "name" asStr
      let url ← reqField fields "url" asStr
      let description ← optField fields "description" asStr
      let language ← optField fields "language" asStr
      let stars ← reqField fields "stars" asInt
      let forks ← reqField fields "forks" asInt
      let created_at ← reqField fields "created_at" asStr
      let updated_at ← reqField fields "updated_at" asStr
      let files ← optField fields "files" asStrList
      some { name, url, description, language, stars, forks, created_at,
             updated_at, files }
  | _ => none

/-- Validate every element of a repository array. -/
def parseRepoItems : List Json → Option (List RepositoryInfo)
  | [] => some []
  | x :: rest =>
      match parseRepositoryInfo x with
      | none => none
      | some r => (parseRepoItems rest).map (fun rs => r :: rs)

/-- Modelled from the spec: `load_results_from_json` is code of this
repository that is not among the source files (only its tests import it,
from `reporover.discover`).  Following §4.7/§6: parse the persisted
document, require the configuration object and the repository array (keyed
`repos` or `repositories`, §6 names both) inside the `reporover` container
the saver writes and the tests exhibit, validate every field required by
`DiscoverConfiguration`, and yield `none` on any structural mismatch —
never a partial object.  File-level failures (missing file, invalid JSON
syntax) are outside the document model and also yield `none` in the
spec. -/
def load_results_from_json (document : Json) :
    Option (DiscoverConfiguration × List RepositoryInfo) :=
  match document with
  | .obj fields =>
      match lookupKey fields "reporover" with
      | some (.obj inner) =>
          match lookupKey inner "configuration" with
          | some cj =>
              match parseDiscoverConfiguration cj with
              | some configuration =>
                  let reposJson :=
                    match lookupKey inner "repos" with
                    | some r => some r
                    | none => lookupKey inner "repositories"
                  match reposJson with
                  | some (.arr items) =>
                      (parseRepoItems items).map
                        (fun rs => (configuration, rs))
                  | _ => none
              | none => none
          | none => none
      | _ => none
  | _ => none

/-- The keys of the top-level JSON object (empty for non-objects). -/
def topLevelKeys : Json → List String
  | .obj fields => fields.map (fun kv => kv.1)
  | _ => []

/-- The field list of the `reporover` container object of a document. -/
def docInnerFields (document : Json) : Option (List (String × Json)) :=
  match document with
  | .obj fields =>
      match lookupKey fields "reporover" with
      | some (.obj inner) => some inner
      | _ => none
  | _ => none

/-- The field list of the configuration object of a document. -/
def docConfigFields (document : Json) : Option (List (String × Json)) :=
  (docInnerFields document).bind (fun inner =>
    match lookupKey inner "configuration" with
    | some (.obj cf) => some cf
    | _ => none)

/-- The record objects of a document. -/
def docRepoObjs (document : Json) : Option (List Json) :=
  (docInnerFields document).bind (fun inner =>
    match lookupKey inner "repos" with
    | some (.arr xs) => some xs
    | _ => none)

/-- Whether a JSON value is `null` (no recursion into children). -/
def jsonIsNull : Json → Bool
  | .null => true
  | _ => false

/-- The field list of a JSON object (empty for non-objects). -/
def objFields : Json → List (String × Json)
  | .obj fields => fields
  | _ => []

/-- The keys the saved configuration object must carry for given
configuration data: `command`, each present optional field, and
`search_query` — absent optional fields contribute no key. -/
def expectedConfigKeys (cd : ConfigurationData) : List String :=
  ["command"] ++
  (if cd.language.isSome then ["language"] else []) ++
  (if cd.stars.isSome then ["stars"] else []) ++
  (if cd.forks.isSome then ["forks"] else []) ++
  (if cd.created_after.isSome then ["created_after"] else []) ++
  (if cd.updated_after.isSome then ["updated_after"] else []) ++
  (if cd.files.isSome then ["files"] else []) ++
  (if cd.topics.isSome then ["topics"] else []) ++
  (if cd.max_depth.isSome then ["max_depth"] else []) ++
  (if cd.max_filter.isSome then ["max_filter"] else []) ++
  (if cd.max_display.isSome then ["max_display"] else []) ++
  ["search_query"]

/-- The keys a dumped repository record must carry: the required fields
always, the optional ones exactly when present. -/
def expectedRepoKeys (r : RepositoryInfo) : List String :=
  ["name", "url"] ++
  (if r.description.isSome then ["description"] else []) ++
  (if r.language.isSome then ["language"] else []) ++
  ["stars", "forks", "created_at", "updated_at"] ++
  (if r.files.isSome then ["files"] else [])

/-! ## Theorems -/

/-- C8: the name matcher returns true when the fragment is empty or the
bare `*`; otherwise a fragment containing `*` or `?` is decided by
case-insensitive glob matching and a fragment without them by
case-insensitive substring containment; and the glob tier comes before the
substring fallback: on name `xa*y` and fragment `a*` the matcher answers
false (glob) although the fragment is a literal substring of the name. -/
theorem C8_matches_repo_pattern_policy :
    (∀ repo_name fragment : String,
      (matches_repo_pattern repo_name fragment = true ↔
        (fragment = "" ∨ fragment = "*") ∨
        (fragment ≠ "" ∧ fragment ≠ "*" ∧
          (fragment.data.contains '*' || fragment.data.contains '?') = true ∧
          fnmatchLower repo_name fragment = true) ∨
        (fragment ≠ "" ∧ fragment ≠ "*" ∧
          (fragment.data.contains '*' || fragment.data.contains '?') = false ∧
          strContainsLower repo_name fragment = true))) ∧
    matches_repo_pattern "xa*y" "a*" = false ∧
    strContainsLower "xa*y" "a*" = true ∧
    fnmatchLower "xa*y" "a*" = false := by
  refine ⟨?_, by decide, by decide, by decide⟩
  intro rn fr
  unfold matches_repo_pattern
  split_ifs with hA hB
  · have h : fr = "" ∨ fr = "*" := by simpa using hA
    rcases h with h | h <;> simp [h]
  · have hA' : fr ≠ "" ∧ fr ≠ "*" := by simpa [not_or] using hA
    constructor
    · intro hm
      exact Or.inr (Or.inl ⟨hA'.1, hA'.2, hB, hm⟩)
    · rintro (h | ⟨-, -, -, hf⟩ | ⟨-, -, hc, -⟩)
      · rcases h with h | h
        · exact absurd h hA'.1
        · exact absurd h hA'.2
      · exact hf
      · rw [hB] at hc
        exact Bool.noConfusion hc
  · have hA' : fr ≠ "" ∧ fr ≠ "*" := by simpa [not_or] using hA
    have hB' : (fr.data.contains '*' || fr.data.contains '?') = false := by
      simpa using hB
    constructor
    · intro hm
      exact Or.inr (Or.inr ⟨hA'.1, hA'.2, hB', hm⟩)
    · rintro (h | ⟨-, -, hc, -⟩ | ⟨-, -, -, hs⟩)
      · rcases h with h | h
        · exact absurd h hA'.1
        · exact absurd h hA'.2
      · rw [hB'] at hc
        exact Bool.noConfusion hc
      · exact hs

/-- C9: for every combination of criteria, the built query is the
space-join of the token groups in the fixed order language, stars, forks,
created, updated, then topics in input order, and with every criterion
absent the query is exactly `is:public`. -/
theorem C9_build_search_query_order :
    (∀ (language : Option String) (stars forks : Option Int)
        (created_after updated_after : Option String)
        (topics : Option (List String)),
      build_search_query language stars forks created_after updated_after topics =
        (if specQueryTokens language stars forks created_after updated_after
              topics = [] then
          "is:public"
        else
          String.intercalate " "
            (specQueryTokens language stars forks created_after updated_after
              topics))) ∧
    build_search_query none none none none none none = "is:public" := by
  refine ⟨?_, by decide⟩
  intro l s f c u t
  have e : build_search_query l s f c u t =
      String.intercalate " "
        (if specQueryTokens l s f c u t = [] then ["is:public"]
        else specQueryTokens l s f c u t) := rfl
  rw [e]
  by_cases h : specQueryTokens l s f c u t = []
  · rw [if_pos h, if_pos h]
    rfl
  · rw [if_neg h, if_neg h]

theorem foldl_append_eq_flatMap (g : α → List β) :
    ∀ (l : List α) (acc : List β),
      l.foldl (fun a p => a ++ g p) acc = acc ++ l.flatMap g := by
  intro l
  induction l with
  | nil => intro acc; simp
  | cons p rest ih => intro acc; simp [List.foldl_cons, ih]

theorem matchAllLoop_snd (files : List String) :
    ∀ (pats acc : List String),
      (matchAllLoop files pats acc).2 = true ↔
        ∀ p ∈ pats, pattern_matches files p ≠ [] := by
  intro pats
  induction pats with
  | nil => intro acc; simp [matchAllLoop]
  | cons p rest ih =>
      intro acc
      simp only [matchAllLoop]
      by_cases h : pattern_matches files p = []
      · rw [if_neg (not_not_intro h)]
        constructor
        · intro hf
          exact Bool.noConfusion hf
        · intro hall
          exact absurd h (hall p (by simp))
      · rw [if_pos h]
        rw [ih]
        simp [List.forall_mem_cons, h]

theorem matchAllLoop_fst (files : List String) :
    ∀ (pats acc : List String),
      (∀ p ∈ pats, pattern_matches files p ≠ []) →
      (matchAllLoop files pats acc).1 =
        acc ++ pats.flatMap (pattern_matches files) := by
  intro pats
  induction pats with
  | nil => intro acc _; simp [matchAllLoop]
  | cons p rest ih =>
      intro acc hall
      have hp : pattern_matches files p ≠ [] := hall p (by simp)
      simp only [matchAllLoop]
      rw [if_pos hp]
      rw [ih _ (fun q hq => hall q (by simp [hq]))]
      simp

/-- C7: a file name matches a pattern iff case-insensitive substring
containment, exact equality, or case-insensitive glob match holds; with
`match_all` true the result is empty as soon as one pattern has no
matches and otherwise is the de-duplicated union of all per-pattern
matches; with `match_all` false it is the de-duplicated union with
zero-match patterns contributing nothing; and on the spec's example the
two policies give `[]` and `["README.md"]`. -/
theorem C7_check_patterns_match :
    (∀ pattern name : String,
      patternTest pattern name = true ↔
        (strContainsLower name pattern = true ∨ name = pattern ∨
          fnmatchLower name pattern = true)) ∧
    (∀ files pats : List String,
      (∃ p ∈ pats, pattern_matches files p = []) →
      check_patterns_match files pats true = []) ∧
    (∀ files pats : List String,
      (∀ p ∈ pats, pattern_matches files p ≠ []) →
      ∀ x, x ∈ check_patterns_match files pats true ↔
        (x ∈ files ∧ ∃ p ∈ pats, patternTest p x = true)) ∧
    (∀ files pats : List String, ∀ x,
      x ∈ check_patterns_match files pats false ↔
        (x ∈ files ∧ ∃ p ∈ pats, patternTest p x = true)) ∧
    (∀ files pats : List String, ∀ b, (check_patterns_match files pats b).Nodup) ∧
    check_patterns_match ["README.md", "main.py"] ["README", "missing"] true
      = [] ∧
    check_patterns_match ["README.md", "main.py"] ["README", "missing"] false
      = ["README.md"] := by
  refine ⟨?_, ?_, ?_, ?_, ?_, by decide, by decide⟩
  · intro pattern name
    simp only [patternTest, Bool.or_eq_true, beq_iff_eq]
    tauto
  · rintro files pats ⟨p, hp, hpe⟩
    have h2 : ¬((matchAllLoop files pats []).2 = true) := by
      intro hcontra
      rw [matchAllLoop_snd] at hcontra
      exact hcontra p hp hpe
    show (if (matchAllLoop files pats []).2 = true then
        (matchAllLoop files pats []).1.dedup else []) = []
    rw [if_neg h2]
  · intro files pats hall x
    show x ∈ (if (matchAllLoop files pats []).2 = true then
        (matchAllLoop files pats []).1.dedup else []) ↔ _
    rw [if_pos (by rw [matchAllLoop_snd]; exact hall)]
    rw [matchAllLoop_fst files pats [] hall]
    simp only [List.nil_append, List.mem_dedup, List.mem_flatMap,
      pattern_matches, List.mem_filter]
    constructor
    · rintro ⟨p, hp, hx, ht⟩
      exact ⟨hx, p, hp, ht⟩
    · rintro ⟨hx, p, hp, ht⟩
      exact ⟨p, hp, hx, ht⟩
  · intro files pats x
    simp only [check_patterns_match, Bool.false_eq_true, if_false]
    rw [foldl_append_eq_flatMap]
    simp only [List.nil_append, List.mem_dedup, List.mem_flatMap,
      pattern_matches, List.mem_filter]
    constructor
    · rintro ⟨p, hp, hx, ht⟩
      exact ⟨hx, p, hp, ht⟩
    · rintro ⟨hx, p, hp, ht⟩
      exact ⟨p, hp, hx, ht⟩
  · intro files pats b
    cases b
    · simp only [check_patterns_match, Bool.false_eq_true, if_false]
      exact List.nodup_dedup _
    · simp only [check_patterns_match, if_true]
      split_ifs
      · exact List.nodup_dedup _
      · exact List.nodup_nil

/-- Witness for C7 at concrete inputs, discharging both hypotheses. -/
theorem C7_check_patterns_match_witness :
    ((∃ p ∈ (["missing"] : List String), pattern_matches ["main.py"] p = []) ∧
      check_patterns_match ["main.py"] ["missing"] true = []) ∧
    ((∀ p ∈ (["main"] : List String), pattern_matches ["main.py"] p ≠ []) ∧
      ("main.py" ∈ check_patterns_match ["main.py"] ["main"] true ↔
        ("main.py" ∈ (["main.py"] : List String) ∧
          ∃ p ∈ (["main"] : List String), patternTest p "main.py" = true))) := by
  exact ⟨⟨by decide, C7_check_patterns_match.2.1 _ _ (by decide)⟩,
        ⟨by decide, C7_check_patterns_match.2.2.1 _ _ (by decide) _⟩⟩

/-- C10: a cap of 0 disables the bound.  `get_all_repositories` with
`max_repos = 0` behaves exactly like the loop with no cap check (it keeps
paginating until an empty or failing page and never truncates); on a
provider with one page of five records it returns the five records, not
zero; and the matching-repository loop of `search_repositories_for_files`
with `max_matching_repos = 0` behaves exactly like the loop with no stop
check. -/
theorem C10_zero_cap_disables_bound :
    (∀ (α : Type) (requestGet : Nat → PageResult α) (org : Option String)
        (fuel page : Nat) (acc : List α) (pages : List Nat)
        (log : List String),
      getAllRepositoriesLoop requestGet org 0 fuel page acc pages log =
        getAllRepositoriesNoCapLoop requestGet org fuel page acc pages log) ∧
    doneRepos (get_all_repositories
        (fun p => PageResult.resp 200 (if p = 1 then [1, 2, 3, 4, 5] else []))
        none 0 10) = some [1, 2, 3, 4, 5] ∧
    donePages (get_all_repositories
        (fun p => PageResult.resp 200 (if p = 1 then [1, 2, 3, 4, 5] else []))
        none 0 10) = some [1, 2] ∧
    (∀ (repoFiles : Repo → List String) (file_patterns : List String)
        (match_all : Bool) (org : Option String) (repos : List Repo)
        (found : List FoundRepo),
      searchFoundLoop repoFiles file_patterns match_all 0 org repos found =
        searchFoundLoopNoCap repoFiles file_patterns match_all org repos
          found) := by
  refine ⟨?_, by decide, by decide, ?_⟩
  · intro α requestGet org fuel
    induction fuel with
    | zero => intro page acc pages log; rfl
    | succ fuel ih =>
        intro page acc pages log
        simp only [getAllRepositoriesLoop, getAllRepositoriesNoCapLoop]
        cases hreq : requestGet page with
        | raise msg => rfl
        | resp status records =>
            show (if status ≠ statusWorking then _ else _) =
              (if status ≠ statusWorking then _ else _)
            by_cases h1 : status ≠ statusWorking
            · rw [if_pos h1, if_pos h1]
            · rw [if_neg h1, if_neg h1]
              by_cases h2 : records.isEmpty
              · rw [if_pos h2, if_pos h2]
              · rw [if_neg h2, if_neg h2]
                rw [if_neg (by simp)]
                exact ih _ _ _ _
  · intro repoFiles file_patterns match_all org repos
    induction repos with
    | nil => intro found; rfl
    | cons repo rest ih =>
        intro found
        simp only [searchFoundLoop, searchFoundLoopNoCap]
        by_cases h :
            check_patterns_match (repoFiles repo) file_patterns match_all ≠ []
        · rw [if_pos h, if_pos h]
          rw [if_neg (by simp)]
          exact ih _
        · rw [if_neg h, if_neg h]
          exact ih _

theorem pagesConcat_zero (pages : Nat → List α) (start : Nat) :
    pagesConcat pages start 0 = [] := by
  simp [pagesConcat]

theorem pagesConcat_succ (pages : Nat → List α) (start k : Nat) :
    pagesConcat pages start (k + 1) =
      pages start ++ pagesConcat pages (start + 1) k := by
  simp [pagesConcat, List.range'_succ]

theorem allOkLoop_spec {α : Type} (pages : Nat → List α) (mr : Nat)
    (org : Option String) :
    ∀ (fuel page : Nat) (acc : List α) (pgs : List Nat) (log : List String)
      (res : List α) (rpages : List Nat) (rlog : List String),
      getAllRepositoriesLoop (fun p => PageResult.resp statusWorking (pages p))
          org mr fuel page acc pgs log = some (.done res rpages rlog) →
      ∃ k, 1 ≤ k ∧ rpages = pgs ++ List.range' page k ∧
        ((pages (page + k - 1) = [] ∧
            res = acc ++ pagesConcat pages page (k - 1)) ∨
          (mr ≠ 0 ∧ res = (acc ++ pagesConcat pages page k).take mr ∧
            mr ≤ (acc ++ pagesConcat pages page k).length ∧
            ∀ i < k, pages (page + i) ≠ [])) := by
  intro fuel
  induction fuel with
  | zero =>
      intro page acc pgs log res rpages rlog h
      exact absurd h (by simp [getAllRepositoriesLoop])
  | succ fuel ih =>
      intro page acc pgs log res rpages rlog h
      simp only [getAllRepositoriesLoop] at h
      rw [if_neg (not_not_intro rfl)] at h
      by_cases hemp : (pages page).isEmpty
      · rw [if_pos hemp] at h
        simp only [Option.some.injEq, FetchResult.done.injEq] at h
        obtain ⟨h1, h2, h3⟩ := h
        refine ⟨1, le_refl 1, ?_, Or.inl ⟨?_, ?_⟩⟩
        · rw [← h2]
          simp [List.range'_succ]
        · simpa using hemp
        · rw [← h1]
          simp [pagesConcat_zero]
      · rw [if_neg hemp] at h
        by_cases hcap : mr ≠ 0 ∧ (acc ++ pages page).length ≥ mr
        · rw [if_pos hcap] at h
          simp only [Option.some.injEq, FetchResult.done.injEq] at h
          obtain ⟨h1, h2, h3⟩ := h
          refine ⟨1, le_refl 1, ?_, Or.inr ⟨hcap.1, ?_, ?_, ?_⟩⟩
          · rw [← h2]
            simp [List.range'_succ]
          · rw [← h1]
            simp [pagesConcat_succ, pagesConcat_zero]
          · simpa [pagesConcat_succ, pagesConcat_zero] using hcap.2
          · intro i hi
            have hiz : i = 0 := by omega
            subst hiz
            simpa using hemp
        · rw [if_neg hcap] at h
          obtain ⟨k', hk1, hpg, hdisj⟩ :=
            ih (page + 1) (acc ++ pages page) (pgs ++ [page]) _ res rpages rlog h
          obtain ⟨k'', rfl⟩ : ∃ k'', k' = k'' + 1 := ⟨k' - 1, by omega⟩
          refine ⟨k'' + 1 + 1, by omega, ?_, ?_⟩
          · rw [hpg]
            simp [List.range'_succ]
          · rcases hdisj with ⟨hlast, hres⟩ | ⟨hmr, hres, hlen, hne⟩
            · left
              constructor
              · have he : page + (k'' + 1 + 1) - 1 = page + 1 + (k'' + 1) - 1 := by
                  omega
                rw [he]
                exact hlast
              · rw [hres]
                simp [pagesConcat_succ]
            · right
              refine ⟨hmr, ?_, ?_, ?_⟩
              · rw [hres]
                simp [pagesConcat_succ]
              · simpa [pagesConcat_succ] using hlen
              · intro i hi
                cases i with
                | zero => simpa using hemp
                | succ j =>
                    have hj : j < k'' + 1 := by omega
                    have := hne j hj
                    simpa [Nat.add_assoc, Nat.add_comm 1 j] using this

/-- C3: pagination requests pages 1, 2, …, k consecutively and, on a
provider whose pages all succeed, stops exactly on an empty page
(returning every previous record in full) or on reaching the cap
(truncating to exactly the cap, every requested page nonempty);
concretely, three full pages of 100 with cap 300 yield exactly 300
records with pages 1–3 requested and no fourth request, and cap 250
crossed mid-page truncates to exactly 250. -/
theorem C3_pagination_termination :
    (∀ (α : Type) (pages : Nat → List α) (org : Option String)
        (mr fuel : Nat) (res : List α) (rpages : List Nat)
        (rlog : List String),
      get_all_repositories (fun p => PageResult.resp statusWorking (pages p))
          org mr fuel = some (.done res rpages rlog) →
      ∃ k, 1 ≤ k ∧ rpages = List.range' 1 k ∧
        ((pages k = [] ∧ res = pagesConcat pages 1 (k - 1)) ∨
          (mr ≠ 0 ∧ res = (pagesConcat pages 1 k).take mr ∧
            mr ≤ (pagesConcat pages 1 k).length ∧
            ∀ i < k, pages (1 + i) ≠ []))) ∧
    doneRepos (get_all_repositories
        (fun p => PageResult.resp statusWorking (pagesScenario p)) none 300 10)
      = some (List.range 300) ∧
    donePages (get_all_repositories
        (fun p => PageResult.resp statusWorking (pagesScenario p)) none 300 10)
      = some [1, 2, 3] ∧
    doneRepos (get_all_repositories
        (fun p => PageResult.resp statusWorking (pagesScenario p)) none 250 10)
      = some (List.range 250) ∧
    donePages (get_all_repositories
        (fun p => PageResult.resp statusWorking (pagesScenario p)) none 250 10)
      = some [1, 2, 3] := by
  refine ⟨?_, by decide, by decide, by decide, by decide⟩
  intro α pages org mr fuel res rpages rlog h
  obtain ⟨k, hk1, hpg, hdisj⟩ :=
    allOkLoop_spec pages mr org fuel 1 [] [] [] res rpages rlog h
  have he : 1 + k - 1 = k := by omega
  refine ⟨k, hk1, by simpa using hpg, ?_⟩
  rcases hdisj with ⟨hlast, hres⟩ | ⟨hmr, hres, hlen, hne⟩
  · left
    rw [he] at hlast
    exact ⟨hlast, by simpa using hres⟩
  · right
    exact ⟨hmr, by simpa using hres, by simpa using hlen, hne⟩

/-- Witness for C3: the general pagination characterization applied to the
all-empty provider, whose run requests exactly page 1. -/
theorem C3_pagination_termination_witness :
    ∃ k, 1 ≤ k ∧ [1] = List.range' 1 k ∧
      ((emptyPages k = [] ∧ ([] : List Nat) = pagesConcat emptyPages 1 (k - 1)) ∨
        (100 ≠ 0 ∧ ([] : List Nat) = (pagesConcat emptyPages 1 k).take 100 ∧
          100 ≤ (pagesConcat emptyPages 1 k).length ∧
          ∀ i < k, emptyPages (1 + i) ≠ [])) :=
  C3_pagination_termination.1 Nat emptyPages none 100 5 [] [1]
    ["Debug: Making request to: https://api.github.com/search/repositories?q=is:public&per_page=100&page=1",
     "Debug: Response status code: 200"] (by decide)

/-- C4 counterexample: a primary listing call answering HTTP 404 does not
terminate the run with `FAILURE` — the run completes with `SUCCESS` (the
diagnostic with the status is printed, but only pagination stops). -/
theorem C4_counterexample :
    searchStatus (search_repositories_for_files
        (fun _ => PageResult.resp 404 []) (fun _ => []) "" "" [] false
        100 100 5) = some StatusCode.SUCCESS ∧
    searchStatus (search_repositories_for_files
        (fun _ => PageResult.resp 404 []) (fun _ => []) "" "" [] false
        100 100 5) ≠ some StatusCode.FAILURE ∧
    "Diagnostic: 404" ∈ searchLog (search_repositories_for_files
        (fun _ => PageResult.resp 404 []) (fun _ => []) "" "" [] false
        100 100 5) := by
  exact ⟨by decide, by decide, by decide⟩

/-- C4 (amended): a raised request exception on the primary listing call
makes the run terminate with `FAILURE` and surfaces a diagnostic with the
exception on the console; a run whose pagination completes without an
exception — including one stopped by a non-2xx page status — terminates
with `SUCCESS`; and a non-2xx page status stops pagination on the spot,
returning what was accumulated and printing a diagnostic containing the
status. -/
theorem C4_primary_listing_failure_handling :
    (∀ (requestGet : Nat → PageResult Repo) (repoFiles : Repo → List String)
        (url frag : String) (pats : List String) (ma : Bool)
        (mrs mmr fuel : Nat) (msg : String) (pages : List Nat)
        (log : List String),
      get_all_repositories requestGet (extractOrganizationName url) mrs fuel
          = some (.raised msg pages log) →
      searchStatus (search_repositories_for_files requestGet repoFiles url
          frag pats ma mrs mmr fuel) = some StatusCode.FAILURE ∧
      s!"Diagnostic: {msg}" ∈ searchLog (search_repositories_for_files
          requestGet repoFiles url frag pats ma mrs mmr fuel)) ∧
    (∀ (requestGet : Nat → PageResult Repo) (repoFiles : Repo → List String)
        (url frag : String) (pats : List String) (ma : Bool)
        (mrs mmr fuel : Nat) (repos : List Repo) (pages : List Nat)
        (log : List String),
      get_all_repositories requestGet (extractOrganizationName url) mrs fuel
          = some (.done repos pages log) →
      searchStatus (search_repositories_for_files requestGet repoFiles url
          frag pats ma mrs mmr fuel) = some StatusCode.SUCCESS) ∧
    (∀ (α : Type) (requestGet : Nat → PageResult α) (org : Option String)
        (mr fuel page : Nat) (acc : List α) (pages : List Nat)
        (log : List String) (s : Nat) (records : List α),
      requestGet page = PageResult.resp s records → s ≠ statusWorking →
      getAllRepositoriesLoop requestGet org mr (fuel + 1) page acc pages log
        = some (.done acc (pages ++ [page])
            (log ++ [s!"Debug: Making request to: {reposUrl org page}",
                     s!"Debug: Response status code: {s}",
                     s!"Failed to fetch repositories page {page}",
                     s!"Diagnostic: {s}"]))) := by
  refine ⟨?_, ?_, ?_⟩
  · intro requestGet repoFiles url frag pats ma mrs mmr fuel msg pages log h
    simp only [search_repositories_for_files]
    rw [h]
    constructor
    · rfl
    · simp [searchLog]
  · intro requestGet repoFiles url frag pats ma mrs mmr fuel repos pages log h
    simp only [search_repositories_for_files]
    rw [h]
    simp only [searchStatus]
    split_ifs <;> rfl
  · intro α requestGet org mr fuel page acc pages log s records hreq hs
    simp only [getAllRepositoriesLoop, hreq]
    rw [if_pos hs]
    simp

/-- Witness for C4 (amended): a provider raising a request exception yields
`FAILURE` with the diagnostic; a provider answering 404 yields `SUCCESS`. -/
theorem C4_primary_listing_failure_handling_witness :
    (searchStatus (search_repositories_for_files
        (fun _ => PageResult.raise "boom") (fun _ => []) "" "" [] false
        100 100 5) = some StatusCode.FAILURE ∧
      "Diagnostic: boom" ∈ searchLog (search_repositories_for_files
        (fun _ => PageResult.raise "boom") (fun _ => []) "" "" [] false
        100 100 5)) ∧
    searchStatus (search_repositories_for_files
        (fun _ => PageResult.resp 404 []) (fun _ => []) "" "" [] false
        100 100 5) = some StatusCode.SUCCESS ∧
    getAllRepositoriesLoop (fun _ => PageResult.resp 404 ([] : List Repo))
        none 100 5 1 [] [] [] = some (.done [] [1]
          ["Debug: Making request to: https://api.github.com/search/repositories?q=is:public&per_page=100&page=1",
           "Debug: Response status code: 404",
           "Failed to fetch repositories page 1",
           "Diagnostic: 404"]) := by
  refine ⟨?_, ?_, ?_⟩
  · exact C4_primary_listing_failure_handling.1 (fun _ => PageResult.raise "boom")
      (fun _ => []) "" "" [] false 100 100 5 "boom" [1]
      ["Debug: Making request to: https://api.github.com/search/repositories?q=is:public&per_page=100&page=1"]
      (by decide)
  · exact C4_primary_listing_failure_handling.2.1 (fun _ => PageResult.resp 404 [])
      (fun _ => []) "" "" [] false 100 100 5 [] [1]
      ["Debug: Making request to: https://api.github.com/search/repositories?q=is:public&per_page=100&page=1",
       "Debug: Response status code: 404",
       "Failed to fetch repositories page 1",
       "Diagnostic: 404"]
      (by decide)
  · exact C4_primary_listing_failure_handling.2.2 Repo
      (fun _ => PageResult.resp 404 []) none 100 4 1 [] [] [] 404 [] rfl
      (by decide)

theorem collectFold_eq (contents : String → DListing) (maxD fuel d : Nat) :
    ∀ (items : List FItem) (acc : List FItem),
      items.foldl (fun all_files item =>
        if item.type == "file" then all_files ++ [item]
        else if item.type == "dir" then
          all_files ++ [item] ++
            (if d < maxD then
              collectFilesRecursive contents maxD fuel (d + 1) item.path
            else [])
        else all_files) acc
      = acc ++ items.flatMap (fun item =>
          if item.type == "file" then [item]
          else if item.type == "dir" then
            item :: (if d < maxD then
              collectFilesRecursive contents maxD fuel (d + 1) item.path
            else [])
          else []) := by
  intro items
  induction items with
  | nil => intro acc; simp
  | cons it rest ih =>
      intro acc
      simp only [List.foldl_cons, List.flatMap_cons]
      by_cases h1 : (it.type == "file") = true
      · rw [if_pos h1, if_pos h1, ih]
        simp
      · rw [if_neg h1, if_neg h1]
        by_cases h2 : (it.type == "dir") = true
        · rw [if_pos h2, if_pos h2, ih]
          simp
        · rw [if_neg h2, if_neg h2, ih]
          simp

theorem collectAnnFold_eq (contents : String → DListing) (maxD fuel d : Nat) :
    ∀ (items : List FItem) (acc : List (Nat × FItem)),
      items.foldl (fun all_files item =>
        if item.type == "file" then all_files ++ [(d, item)]
        else if item.type == "dir" then
          all_files ++ [(d, item)] ++
            (if d < maxD then
              collectFilesAnnotated contents maxD fuel (d + 1) item.path
            else [])
        else all_files) acc
      = acc ++ items.flatMap (fun item =>
          if item.type == "file" then [(d, item)]
          else if item.type == "dir" then
            (d, item) :: (if d < maxD then
              collectFilesAnnotated contents maxD fuel (d + 1) item.path
            else [])
          else []) := by
  intro items
  induction items with
  | nil => intro acc; simp
  | cons it rest ih =>
      intro acc
      simp only [List.foldl_cons, List.flatMap_cons]
      by_cases h1 : (it.type == "file") = true
      · rw [if_pos h1, if_pos h1, ih]
        simp
      · rw [if_neg h1, if_neg h1]
        by_cases h2 : (it.type == "dir") = true
        · rw [if_pos h2, if_pos h2, ih]
          simp
        · rw [if_neg h2, if_neg h2, ih]
          simp

theorem collectFilesRecursive_succ (contents : String → DListing)
    (maxD fuel d : Nat) (path : String) :
    collectFilesRecursive contents maxD (fuel + 1) d path =
      if d > maxD then []
      else if (contents path).status ≠ statusWorking then []
      else if ¬(contents path).isList then []
      else (contents path).items.flatMap (fun item =>
        if item.type == "file" then [item]
        else if item.type == "dir" then
          item :: (if d < maxD then
            collectFilesRecursive contents maxD fuel (d + 1) item.path
          else [])
        else []) := by
  simp only [collectFilesRecursive]
  by_cases h1 : d > maxD
  · rw [if_pos h1, if_pos h1]
  · rw [if_neg h1, if_neg h1]
    by_cases h2 : (contents path).status ≠ statusWorking
    · rw [if_pos h2, if_pos h2]
    · rw [if_neg h2, if_neg h2]
      by_cases h3 : ¬(contents path).isList
      · rw [if_pos h3, if_pos h3]
      · rw [if_neg h3, if_neg h3]
        rw [collectFold_eq]
        simp

theorem collectFilesAnnotated_succ (contents : String → DListing)
    (maxD fuel d : Nat) (path : String) :
    collectFilesAnnotated contents maxD (fuel + 1) d path =
      if d > maxD then []
      else if (contents path).status ≠ statusWorking then []
      else if ¬(contents path).isList then []
      else (contents path).items.flatMap (fun item =>
        if item.type == "file" then [(d, item)]
        else if item.type == "dir" then
          (d, item) :: (if d < maxD then
            collectFilesAnnotated contents maxD fuel (d + 1) item.path
          else [])
        else []) := by
  simp only [collectFilesAnnotated]
  by_cases h1 : d > maxD
  · rw [if_pos h1, if_pos h1]
  · rw [if_neg h1, if_neg h1]
    by_cases h2 : (contents path).status ≠ statusWorking
    · rw [if_pos h2, if_pos h2]
    · rw [if_neg h2, if_neg h2]
      by_cases h3 : ¬(contents path).isList
      · rw [if_pos h3, if_pos h3]
      · rw [if_neg h3, if_neg h3]
        rw [collectAnnFold_eq]
        simp

theorem flatMap_emit_eq_filter (items : List FItem) :
    items.flatMap (fun item =>
      if item.type == "file" then [item]
      else if item.type == "dir" then [item]
      else []) =
    items.filter (fun item => item.type == "file" || item.type == "dir") := by
  induction items with
  | nil => rfl
  | cons it rest ih =>
      simp only [List.flatMap_cons, List.filter_cons]
      rw [ih]
      by_cases h1 : (it.type == "file") = true
      · rw [if_pos h1]
        simp [h1]
      · by_cases h2 : (it.type == "dir") = true
        · rw [if_neg h1, if_pos h2]
          simp [h1, h2]
        · rw [if_neg h1, if_neg h2]
          simp [h1, h2]

theorem collect_eq_annotated (contents : String → DListing) (maxD : Nat) :
    ∀ (fuel d : Nat) (path : String),
      collectFilesRecursive contents maxD fuel d path =
        (collectFilesAnnotated contents maxD fuel d path).map Prod.snd := by
  intro fuel
  induction fuel with
  | zero => intro d path; rfl
  | succ fuel ih =>
      intro d path
      rw [collectFilesRecursive_succ, collectFilesAnnotated_succ]
      by_cases h1 : d > maxD
      · rw [if_pos h1, if_pos h1]
        rfl
      · rw [if_neg h1, if_neg h1]
        by_cases h2 : (contents path).status ≠ statusWorking
        · rw [if_pos h2, if_pos h2]
          rfl
        · rw [if_neg h2, if_neg h2]
          by_cases h3 : ¬(contents path).isList
          · rw [if_pos h3, if_pos h3]
            rfl
          · rw [if_neg h3, if_neg h3]
            rw [List.map_flatMap]
            generalize (contents path).items = items
            induction items with
            | nil => rfl
            | cons it rest ihit =>
                simp only [List.flatMap_cons]
                rw [ihit]
                congr 1
                by_cases hf : (it.type == "file") = true
                · rw [if_pos hf, if_pos hf]
                  rfl
                · rw [if_neg hf, if_neg hf]
                  by_cases hd : (it.type == "dir") = true
                  · rw [if_pos hd, if_pos hd]
                    by_cases hlt : d < maxD
                    · rw [if_pos hlt, if_pos hlt]
                      simp [ih (d + 1) it.path]
                    · rw [if_neg hlt, if_neg hlt]
                      rfl
                  · rw [if_neg hd, if_neg hd]
                    rfl

theorem annotated_depth_bound (contents : String → DListing) (maxD : Nat) :
    ∀ (fuel d : Nat) (path : String) (di : Nat × FItem),
      di ∈ collectFilesAnnotated contents maxD fuel d path →
      d ≤ di.1 ∧ di.1 ≤ maxD := by
  intro fuel
  induction fuel with
  | zero =>
      intro d path di h
      simp [collectFilesAnnotated] at h
  | succ fuel ih =>
      intro d path di h
      rw [collectFilesAnnotated_succ] at h
      by_cases h1 : d > maxD
      · rw [if_pos h1] at h
        simp at h
      · rw [if_neg h1] at h
        by_cases h2 : (contents path).status ≠ statusWorking
        · rw [if_pos h2] at h
          simp at h
        · rw [if_neg h2] at h
          by_cases h3 : ¬(contents path).isList
          · rw [if_pos h3] at h
            simp at h
          · rw [if_neg h3] at h
            rw [List.mem_flatMap] at h
            obtain ⟨item, hmem, hitem⟩ := h
            by_cases hf : (item.type == "file") = true
            · rw [if_pos hf] at hitem
              simp only [List.mem_singleton] at hitem
              subst hitem
              exact ⟨le_refl d, by omega⟩
            · rw [if_neg hf] at hitem
              by_cases hd : (item.type == "dir") = true
              · rw [if_pos hd] at hitem
                rcases List.mem_cons.mp hitem with hh | ht
                · subst hh
                  exact ⟨le_refl d, by omega⟩
                · by_cases hlt : d < maxD
                  · rw [if_pos hlt] at ht
                    obtain ⟨hle, hub⟩ := ih (d + 1) item.path di ht
                    exact ⟨by omega, hub⟩
                  · rw [if_neg hlt] at ht
                    simp at ht
              · rw [if_neg hd] at hitem
                simp at hitem

/-- C5: the walker emits every file of an enumerable listing at any depth
within the bound (including the boundary); at `current_depth = max_depth`
it returns the listing's file and directory entries unexpanded; every
emitted entry comes from a listing at a depth between the starting depth
and `max_depth` (so a depth-4 tree walked with `max_depth = 2` emits the
depth-2 directory unexpanded and nothing from depth 3 or beyond, as the
concrete walk shows); and beyond the bound the walker returns nothing. -/
theorem C5_walker_depth_bound :
    (∀ (contents : String → DListing) (maxD fuel d : Nat) (path : String)
        (item : FItem),
      ¬(d > maxD) → (contents path).status = statusWorking →
      (contents path).isList = true → item ∈ (contents path).items →
      item.type = "file" →
      item ∈ collectFilesRecursive contents maxD (fuel + 1) d path) ∧
    (∀ (contents : String → DListing) (maxD fuel : Nat) (path : String),
      (contents path).status = statusWorking →
      (contents path).isList = true →
      collectFilesRecursive contents maxD (fuel + 1) maxD path =
        (contents path).items.filter
          (fun item => item.type == "file" || item.type == "dir")) ∧
    (∀ (contents : String → DListing) (maxD fuel d : Nat) (path : String),
      collectFilesRecursive contents maxD fuel d path =
        (collectFilesAnnotated contents maxD fuel d path).map Prod.snd) ∧
    (∀ (contents : String → DListing) (maxD fuel d : Nat) (path : String)
        (di : Nat × FItem),
      di ∈ collectFilesAnnotated contents maxD fuel d path →
      d ≤ di.1 ∧ di.1 ≤ maxD) ∧
    get_repository_files tree4 2 =
      [⟨"dir", "a", "a"⟩, ⟨"dir", "b", "a/b"⟩, ⟨"dir", "c", "a/b/c"⟩,
        ⟨"file", "f2", "a/b/f2"⟩, ⟨"file", "f1", "a/f1"⟩,
        ⟨"file", "f0", "f0"⟩] ∧
    (∀ (contents : String → DListing) (maxD fuel d : Nat) (path : String),
      d > maxD → collectFilesRecursive contents maxD fuel d path = []) := by
  refine ⟨?_, ?_, ?_, ?_, by decide, ?_⟩
  · intro contents maxD fuel d path item h1 hst hlist hmem htype
    rw [collectFilesRecursive_succ]
    rw [if_neg h1, if_neg (not_not_intro hst), if_neg (not_not_intro hlist)]
    rw [List.mem_flatMap]
    refine ⟨item, hmem, ?_⟩
    rw [if_pos (by simp [htype])]
    simp
  · intro contents maxD fuel path hst hlist
    rw [collectFilesRecursive_succ]
    rw [if_neg (by omega), if_neg (not_not_intro hst),
      if_neg (not_not_intro hlist)]
    have hlt : ∀ (x : List FItem), (if maxD < maxD then x else []) = [] :=
      fun x => if_neg (by omega)
    simp only [hlt]
    exact flatMap_emit_eq_filter _
  · intro contents maxD fuel d path
    exact collect_eq_annotated contents maxD fuel d path
  · intro contents maxD fuel d path di h
    exact annotated_depth_bound contents maxD fuel d path di h
  · intro contents maxD fuel d path h
    cases fuel with
    | zero => rfl
    | succ fuel =>
        rw [collectFilesRecursive_succ, if_pos h]

/-- Witness for C5 at the concrete depth-4 tree: the root file is emitted
when walking from the root, and the boundary listing at `a/b` is returned
unexpanded. -/
theorem C5_walker_depth_bound_witness :
    ((⟨"file", "f0", "f0"⟩ : FItem) ∈ collectFilesRecursive tree4 2 3 0 "") ∧
    collectFilesRecursive tree4 2 1 2 "a/b" =
      (tree4 "a/b").items.filter
        (fun item => item.type == "file" || item.type == "dir") ∧
    (0 ≤ ((0 : Nat), (⟨"dir", "a", "a"⟩ : FItem)).1 ∧
      ((0 : Nat), (⟨"dir", "a", "a"⟩ : FItem)).1 ≤ 2) ∧
    collectFilesRecursive tree4 2 3 5 "" = [] := by
  refine ⟨?_, ?_, ?_, ?_⟩
  · exact C5_walker_depth_bound.1 tree4 2 2 0 "" ⟨"file", "f0", "f0"⟩
      (by omega) (by decide) (by decide) (by decide) (by decide)
  · exact C5_walker_depth_bound.2.1 tree4 2 0 "a/b" (by decide) (by decide)
  · exact C5_walker_depth_bound.2.2.2.1 tree4 2 3 0 ""
      (0, ⟨"dir", "a", "a"⟩) (by decide)
  · exact C5_walker_depth_bound.2.2.2.2.2 tree4 2 3 5 "" (by decide)

/-- C6 counterexample: in the search walker (`get_all_files_recursive`), a
directory whose listing answers 200 with a non-list (non-empty) payload
does not yield an empty contribution with the walk continuing — the walk
aborts with a raised `TypeError` (the sibling file `kept.txt` is never
returned). -/
theorem C6_counterexample :
    get_all_files_recursive badRepoContents 5 "" =
      some (Except.error "TypeError: string indices must be integers") ∧
    get_all_files_recursive badRepoContents 5 "" ≠
      some (Except.ok ["kept.txt"]) := by
  exact ⟨rfl, fun h => Except.noConfusion (Option.some.inj h)⟩

theorem collectFilesRecursive_failed_listing
    (contents : String → DListing) (maxD : Nat) :
    ∀ (fuel d : Nat) (path : String),
      ((contents path).status ≠ statusWorking ∨
        (contents path).isList = false) →
      collectFilesRecursive contents maxD fuel d path = [] := by
  intro fuel d path hfail
  cases fuel with
  | zero => rfl
  | succ fuel =>
      rw [collectFilesRecursive_succ]
      by_cases h1 : d > maxD
      · rw [if_pos h1]
      · rw [if_neg h1]
        rcases hfail with hst | hlist
        · rw [if_pos hst]
        · by_cases h2 : (contents path).status ≠ statusWorking
          · rw [if_pos h2]
          · rw [if_neg h2, if_pos (by simp [hlist])]

theorem collect_override_failed (contents : String → DListing) (q : String)
    (maxD : Nat)
    (hq : (contents q).status ≠ statusWorking ∨ (contents q).isList = false) :
    ∀ (fuel d : Nat) (path : String),
      collectFilesRecursive contents maxD fuel d path =
        collectFilesRecursive
          (fun p => if p = q then ⟨statusWorking, true, []⟩ else contents p)
          maxD fuel d path := by
  intro fuel
  induction fuel with
  | zero => intro d path; rfl
  | succ fuel ih =>
      intro d path
      by_cases hpq : path = q
      · subst hpq
        rw [collectFilesRecursive_failed_listing contents maxD _ _ _ hq]
        rw [collectFilesRecursive_succ]
        by_cases h1 : d > maxD
        · rw [if_pos h1]
        · rw [if_neg h1]
          simp
      · rw [collectFilesRecursive_succ, collectFilesRecursive_succ]
        have hsame :
            (if path = q then
              (⟨statusWorking, true, []⟩ : DListing) else contents path) =
            contents path := by
          simp [hpq]
        rw [hsame]
        by_cases h1 : d > maxD
        · rw [if_pos h1, if_pos h1]
        · rw [if_neg h1, if_neg h1]
          by_cases h2 : (contents path).status ≠ statusWorking
          · rw [if_pos h2, if_pos h2]
          · rw [if_neg h2, if_neg h2]
            by_cases h3 : ¬(contents path).isList
            · rw [if_pos h3, if_pos h3]
            · rw [if_neg h3, if_neg h3]
              generalize (contents path).items = items
              induction items with
              | nil => rfl
              | cons it rest ihit =>
                  simp only [List.flatMap_cons]
                  rw [ihit]
                  congr 1
                  by_cases hf : (it.type == "file") = true
                  · rw [if_pos hf, if_pos hf]
                  · rw [if_neg hf, if_neg hf]
                    by_cases hd : (it.type == "dir") = true
                    · rw [if_pos hd, if_pos hd]
                      by_cases hlt : d < maxD
                      · rw [if_pos hlt, if_pos hlt]
                        rw [ih (d + 1) it.path]
                      · rw [if_neg hlt, if_neg hlt]
                    · rw [if_neg hd, if_neg hd]

/-- C6 (amended): in the discover walker a non-success status or a
non-list payload at a path yields an empty contribution for that path,
and the walk behaves exactly as if that path were an empty directory (the
remaining branches continue; no error propagates); in the search walker a
non-success status likewise yields an empty contribution, but a 200
response with a non-empty non-list payload raises a `TypeError` that
aborts the walk. -/
theorem C6_walk_error_truncation :
    (∀ (contents : String → DListing) (maxD fuel d : Nat) (path : String),
      ((contents path).status ≠ statusWorking ∨
        (contents path).isList = false) →
      collectFilesRecursive contents maxD fuel d path = []) ∧
    (∀ (contents : String → DListing) (q : String) (maxD : Nat),
      ((contents q).status ≠ statusWorking ∨ (contents q).isList = false) →
      ∀ (fuel d : Nat) (path : String),
        collectFilesRecursive contents maxD fuel d path =
          collectFilesRecursive
            (fun p => if p = q then ⟨statusWorking, true, []⟩ else contents p)
            maxD fuel d path) ∧
    (∀ (contents : String → SListing) (fuel : Nat) (path : String),
      (contents path).status ≠ statusWorking →
      get_all_files_recursive contents (fuel + 1) path = some (.ok [])) ∧
    (∀ (contents : String → SListing) (fuel : Nat) (path : String),
      (contents path).status = statusWorking →
      (contents path).payload = .notArr true →
      get_all_files_recursive contents (fuel + 1) path =
        some (.error "TypeError: string indices must be integers")) := by
  refine ⟨?_, ?_, ?_, ?_⟩
  · intro contents maxD fuel d path hfail
    exact collectFilesRecursive_failed_listing contents maxD fuel d path hfail
  · intro contents q maxD hq fuel d path
    exact collect_override_failed contents q maxD hq fuel d path
  · intro contents fuel path hst
    simp only [get_all_files_recursive]
    rw [if_pos hst]
  · intro contents fuel path hst hpl
    simp only [get_all_files_recursive]
    rw [if_neg (not_not_intro hst), hpl]
    rfl

/-- Witness for C6 at concrete inputs: a 404 listing contributes nothing to
the discover walk; a failing branch of `tree4` is equivalent to an empty
directory; a 404 root gives the search walker an empty success; and a 200
non-list root raises. -/
theorem C6_walk_error_truncation_witness :
    collectFilesRecursive (fun _ => ⟨404, true, []⟩) 2 3 0 "" = [] ∧
    collectFilesRecursive (fun p => if p = "x" then ⟨500, true, []⟩ else tree4 p)
        2 3 0 "" =
      collectFilesRecursive
        (fun p => if p = "x" then
          (⟨statusWorking, true, []⟩ : DListing)
        else if p = "x" then ⟨500, true, []⟩ else tree4 p) 2 3 0 "" ∧
    get_all_files_recursive (fun _ => ⟨404, .arr []⟩) 5 "" = some (.ok []) ∧
    get_all_files_recursive (fun _ => ⟨200, .notArr true⟩) 5 "" =
      some (.error "TypeError: string indices must be integers") := by
  refine ⟨?_, ?_, ?_, ?_⟩
  · exact C6_walk_error_truncation.1 (fun _ => ⟨404, true, []⟩) 2 3 0 ""
      (by decide)
  · exact C6_walk_error_truncation.2.1
      (fun p => if p = "x" then ⟨500, true, []⟩ else tree4 p) "x" 2
      (by decide) 3 0 ""
  · exact C6_walk_error_truncation.2.2.1 (fun _ => ⟨404, .arr []⟩) 4 ""
      (by decide)
  · exact C6_walk_error_truncation.2.2.2 (fun _ => ⟨200, .notArr true⟩) 4 ""
      (by decide) (by decide)

theorem lookupKey_nil (k : String) : lookupKey [] k = none := rfl

theorem lookupKey_cons_skip (k2 k : String) (v : Json)
    (rest : List (String × Json)) (h : k2 ≠ k) :
    lookupKey ((k2, v) :: rest) k = lookupKey rest k := by
  simp [lookupKey, h]

theorem lookupKey_cons_self (k : String) (v : Json)
    (rest : List (String × Json)) :
    lookupKey ((k, v) :: rest) k = some v := by
  simp [lookupKey]

theorem lookupKey_optEntry_skip (k2 k : String) (f : α → Json)
    (v : Option α) (rest : List (String × Json)) (h : k2 ≠ k) :
    lookupKey (optEntry k2 f v ++ rest) k = lookupKey rest k := by
  cases v <;> simp [optEntry, lookupKey, h]

theorem lookupKey_optEntry_head (k : String) (f : α → Json) (v : Option α)
    (rest : List (String × Json)) (h : lookupKey rest k = none) :
    lookupKey (optEntry k f v ++ rest) k = v.map f := by
  cases v <;> simp [optEntry, lookupKey, h]

theorem lookupKey_optEntry_skip_last (k2 k : String) (f : α → Json)
    (v : Option α) (h : k2 ≠ k) :
    lookupKey (optEntry k2 f v) k = none := by
  cases v <;> simp [optEntry, lookupKey, h]

theorem lookupKey_optEntry_self_last (k : String) (f : α → Json)
    (v : Option α) :
    lookupKey (optEntry k f v) k = v.map f := by
  cases v <;> simp [optEntry, lookupKey]

theorem strListOf_map_str : ∀ xs : List String,
    strListOf (xs.map Json.str) = some xs := by
  intro xs
  induction xs with
  | nil => rfl
  | cons x rest ih => simp [strListOf, ih]

theorem optField_cons_skip (k2 k : String) (v : Json)
    (rest : List (String × Json)) (p : Json → Option α) (h : k2 ≠ k) :
    optField ((k2, v) :: rest) k p = optField rest k p := by
  simp [optField, lookupKey, h]

theorem optField_optEntry_skip (k2 k : String) (f : β → Json) (w : Option β)
    (rest : List (String × Json)) (p : Json → Option α) (h : k2 ≠ k) :
    optField (optEntry k2 f w ++ rest) k p = optField rest k p := by
  cases w <;> simp [optField, optEntry, lookupKey, h]

theorem optField_head_str (k : String) (w : Option String)
    (rest : List (String × Json)) (h : lookupKey rest k = none) :
    optField (optEntry k Json.str w ++ rest) k asStr = some w := by
  cases w <;> simp [optField, optEntry, lookupKey, h, asStr]

theorem optField_head_num (k : String) (w : Option Int)
    (rest : List (String × Json)) (h : lookupKey rest k = none) :
    optField (optEntry k Json.num w ++ rest) k asInt = some w := by
  cases w <;> simp [optField, optEntry, lookupKey, h, asInt]

theorem optField_head_strList (k : String) (w : Option (List String))
    (rest : List (String × Json)) (h : lookupKey rest k = none) :
    optField (optEntry k jstrList w ++ rest) k asStrList = some w := by
  cases w with
  | none => simp [optField, optEntry, lookupKey, h]
  | some xs =>
      simp [optField, optEntry, lookupKey, h, jstrList, asStrList,
        strListOf_map_str]

theorem optField_last_strList (k : String) (w : Option (List String)) :
    optField (optEntry k jstrList w) k asStrList = some w := by
  cases w with
  | none => simp [optField, optEntry, lookupKey]
  | some xs =>
      simp [optField, optEntry, lookupKey, jstrList, asStrList,
        strListOf_map_str]

set_option maxHeartbeats 1000000 in
theorem parseConfig_dump (c : DiscoverConfiguration) :
    parseDiscoverConfiguration c.dumpExcludeNone = some c := by
  obtain ⟨cmd, lang, stars, forks, ca, ua, files, topics, md, mf, mdisp, sq⟩ := c
  simp only [DiscoverConfiguration.dumpExcludeNone, parseDiscoverConfiguration]
  simp [lookupKey_cons_skip, lookupKey_cons_self, lookupKey_optEntry_skip,
    lookupKey_optEntry_head, lookupKey_optEntry_skip_last,
    lookupKey_optEntry_self_last, lookupKey_nil, optField_cons_skip,
    optField_optEntry_skip, optField_head_str, optField_head_num,
    optField_head_strList, optField_last_strList, reqField, asStr]

theorem parseRepoInfo_dump (r : RepositoryInfo) :
    parseRepositoryInfo r.dumpExcludeNone = some r := by
  obtain ⟨name, url, description, language, stars, forks, ca, ua, files⟩ := r
  simp only [RepositoryInfo.dumpExcludeNone, parseRepositoryInfo]
  simp [lookupKey_cons_skip, lookupKey_cons_self, lookupKey_optEntry_skip,
    lookupKey_optEntry_head, lookupKey_optEntry_skip_last,
    lookupKey_optEntry_self_last, lookupKey_nil, optField_cons_skip,
    optField_optEntry_skip, optField_head_str, optField_head_num,
    optField_head_strList, optField_last_strList, reqField, asStr, asInt]

theorem parseRepoItems_map (rs : List RepositoryInfo) :
    parseRepoItems (rs.map RepositoryInfo.dumpExcludeNone) = some rs := by
  induction rs with
  | nil => rfl
  | cons r rest ih => simp [parseRepoItems, parseRepoInfo_dump, ih]

theorem parseRepoItems_map_comp (g : GitHubRepo → RepositoryInfo)
    (repos : List GitHubRepo) :
    parseRepoItems (repos.map (RepositoryInfo.dumpExcludeNone ∘ g)) =
      some (repos.map g) := by
  induction repos with
  | nil => rfl
  | cons r rest ih => simp [parseRepoItems, parseRepoInfo_dump, ih]

theorem load_save (repos : List GitHubRepo) (cd : ConfigurationData)
    (q : String) (rf : Option (List String)) :
    load_results_from_json (save_results_to_json repos cd q rf) =
      some (savedConfiguration cd q, repos.map (savedRepositoryInfo rf)) := by
  simp [save_results_to_json, create_discover_data, load_results_from_json,
    lookupKey_cons_self, lookupKey_cons_skip, parseConfig_dump,
    parseRepoItems_map, parseRepoItems_map_comp]

/-- C1: round-trip persistence.  Validating a dumped configuration or
repository record reproduces every field exactly (optional `None` fields
are omitted on save and read back as `None` on load), and loading the
document written by save reproduces the full configuration — including
the all-absent and all-present cases — and every record, for every
repository list including the empty one. -/
theorem C1_round_trip :
    (∀ c : DiscoverConfiguration,
      parseDiscoverConfiguration c.dumpExcludeNone = some c) ∧
    (∀ r : RepositoryInfo,
      parseRepositoryInfo r.dumpExcludeNone = some r) ∧
    (∀ (repos : List GitHubRepo) (cd : ConfigurationData) (q : String)
        (rf : Option (List String)),
      load_results_from_json (save_results_to_json repos cd q rf) =
        some (savedConfiguration cd q, repos.map (savedRepositoryInfo rf))) :=
  ⟨parseConfig_dump, parseRepoInfo_dump, load_save⟩

/-- C2 counterexample: the saved document's top level has the single key
`reporover`, not two keys, and the configuration object carries no
`timestamp` key (despite the code comment about a `default_factory`, the
model has no timestamp field). -/
theorem C2_counterexample :
    topLevelKeys (save_results_to_json []
        ⟨none, none, none, none, none, none, none, none, none, none⟩
        "is:public" none) = ["reporover"] ∧
    (topLevelKeys (save_results_to_json []
        ⟨none, none, none, none, none, none, none, none, none, none⟩
        "is:public" none)).length ≠ 2 ∧
    (docConfigFields (save_results_to_json []
        ⟨none, none, none, none, none, none, none, none, none, none⟩
        "is:public" none)).map (fun fs => lookupKey fs "timestamp")
      = some none := by
  exact ⟨rfl, by decide, rfl⟩

theorem optEntry_map_fst (k : String) (f : α → Json) (v : Option α) :
    (optEntry k f v).map Prod.fst = if v.isSome then [k] else [] := by
  cases v <;> simp [optEntry]

theorem optEntry_all_true (k : String) (f : α → Json) (v : Option α)
    (p : String × Json → Bool) (h : ∀ a, p (k, f a) = true) :
    (optEntry k f v).all p = true := by
  cases v <;> simp [optEntry, h]

theorem mem_optEntry_not_null (k : String) (f : α → Json) (v : Option α)
    (hf : ∀ a, jsonIsNull (f a) = false) :
    ∀ (a : String) (b : Json), (a, b) ∈ optEntry k f v →
      jsonIsNull b = false := by
  intro a b hmem
  cases v with
  | none => simp [optEntry] at hmem
  | some x =>
      simp [optEntry] at hmem
      rw [hmem.2]
      exact hf x

/-- C2 (amended): the saved document's top level has exactly the one key
`reporover`, whose object has exactly the keys `configuration` and
`repos`; the configuration object's keys are `command`, each present
optional criterion or cap, and `search_query` — optional fields that are
absent are omitted (so no `timestamp` key exists and no value is `null`);
each dumped record carries its required keys always and its optional keys
exactly when present, with no `null` values. -/
theorem C2_saved_document_shape :
    (∀ (repos : List GitHubRepo) (cd : ConfigurationData) (q : String)
        (rf : Option (List String)),
      topLevelKeys (save_results_to_json repos cd q rf) = ["reporover"] ∧
      (docInnerFields (save_results_to_json repos cd q rf)).map
          (List.map Prod.fst) = some ["configuration", "repos"] ∧
      (docConfigFields (save_results_to_json repos cd q rf)).map
          (List.map Prod.fst) = some (expectedConfigKeys cd) ∧
      (docConfigFields (save_results_to_json repos cd q rf)).map
          (fun fs => lookupKey fs "timestamp") = some none ∧
      (docConfigFields (save_results_to_json repos cd q rf)).map
          (fun fs => fs.all (fun kv => !(jsonIsNull kv.2))) = some true ∧
      docRepoObjs (save_results_to_json repos cd q rf) =
        some ((repos.map (savedRepositoryInfo rf)).map
          RepositoryInfo.dumpExcludeNone)) ∧
    (∀ r : RepositoryInfo,
      topLevelKeys r.dumpExcludeNone = expectedRepoKeys r ∧
      (objFields r.dumpExcludeNone).all (fun kv => !(jsonIsNull kv.2))
        = true) := by
  constructor
  · intro repos cd q rf
    refine ⟨rfl, rfl, ?_, ?_, ?_, ?_⟩
    · simp [save_results_to_json, create_discover_data, docConfigFields,
        docInnerFields, lookupKey_cons_self, lookupKey_cons_skip,
        DiscoverConfiguration.dumpExcludeNone, savedConfiguration,
        expectedConfigKeys, optEntry_map_fst]
    · simp [save_results_to_json, create_discover_data, docConfigFields,
        docInnerFields, lookupKey_cons_self, lookupKey_cons_skip,
        DiscoverConfiguration.dumpExcludeNone, savedConfiguration,
        lookupKey_optEntry_skip, lookupKey_optEntry_skip_last, lookupKey_nil]
    · simp [save_results_to_json, create_discover_data, docConfigFields,
        docInnerFields, lookupKey_cons_self, lookupKey_cons_skip,
        DiscoverConfiguration.dumpExcludeNone, savedConfiguration,
        optEntry_all_true, jsonIsNull]
      exact ⟨mem_optEntry_not_null "files" jstrList cd.files (fun x => rfl),
        mem_optEntry_not_null "topics" jstrList cd.topics (fun x => rfl)⟩
    · simp [save_results_to_json, create_discover_data, docRepoObjs,
        docInnerFields, lookupKey_cons_self, lookupKey_cons_skip]
  · intro r
    constructor
    · simp [RepositoryInfo.dumpExcludeNone, topLevelKeys, expectedRepoKeys,
        optEntry_map_fst]
    · simp [RepositoryInfo.dumpExcludeNone, objFields, optEntry_all_true,
        jsonIsNull]
      exact mem_optEntry_not_null "files" jstrList r.files (fun x => rfl)

end RepoRover
